import Mathlib

/-!
Verification of the ChaiChow shop-management prototypes: a shallow embedding of
the Inventory & Ledger Consistency core (stock adjustment, order/purchase
recording, customer balance computation, CSV record store) of `app.py`,
`myapp.py` and `modules/inventory.py`, together with theorems settling the
claims of the specification about it.

Conventions of the embedding:
* Python floats are idealised as rationals `ℚ`; the Python `round` builtin
  (banker rounding, ties to even) is modelled exactly at tie points by `rhe`.
* pandas DataFrames are modelled as typed lists of rows; each entity table is a
  list of a structure whose fields are the canonical columns.
* the CSV file behind a table is modelled as a list of lines, each a list of
  characters, in the quoting-free fragment (cells containing no comma, quote or
  newline are written verbatim by `DataFrame.to_csv`, which is the fragment all
  theorems below stay within).
-/

/-- Round half to even on rationals: the behaviour of the Python builtin
`round(x)` (exact at every representable tie point). -/
def rhe (q : ℚ) : ℤ :=
  let f := ⌊q⌋
  let r := q - f
  if r < 1/2 then f
  else if 1/2 < r then f + 1
  else if Even f then f else f + 1

/-- The Python `round(x, 2)`: round to two decimal places, ties to even. -/
def round2 (q : ℚ) : ℚ := (rhe (q * 100) : ℚ) / 100

/-- The Python `int(float(x))`: truncation toward zero. -/
def truncInt (q : ℚ) : ℤ := if 0 ≤ q then ⌊q⌋ else ⌈q⌉

/-- The Python `str.lower()` restricted to the ASCII range (the only range the
payment-mode comparisons in the source exercise). -/
def pyLower (s : String) : String := String.mk (s.data.map Char.toLower)

/-- Whitespace characters removed by the Python `str.strip()`. -/
def isPySpace (c : Char) : Bool :=
  c == ' ' || c == '\t' || c == '\n' || c == '\r' || c == '\x0b' || c == '\x0c'

/-- The Python `str.strip()`. -/
def pyStrip (s : String) : String :=
  String.mk (((s.data.dropWhile isPySpace).reverse.dropWhile isPySpace).reverse)

namespace DailyShop

/-! ### `app.py` : data model

Typed rows for the entity tables of the `SCHEMA` of `app.py`, after the numeric
coercions of `list_inventory` (`stock_qty`, `rate`, `min_qty` floats,
`selling_price` int). -/

structure InvItem where
  item_id : String
  item_name : String
  category : String
  unit : String
  stock_qty : ℚ
  rate : ℚ
  selling_price : ℤ
  min_qty : ℚ
deriving DecidableEq, Repr

structure Order where
  date : String
  customer_id : String
  item_id : String
  item_name : String
  qty : ℚ
  rate : ℚ
  selling_price : ℤ
  total : ℚ
  payment_mode : String
  balance : ℚ
  user_id : String
  remarks : String
deriving DecidableEq, Repr

structure ExpenseRow where
  date : String
  type : String
  category : String
  item : String
  item_id : String
  qty : ℚ
  rate : ℚ
  amount : ℚ
  user_id : String
  remarks : String
deriving DecidableEq, Repr

structure Payment where
  date : String
  customer_id : String
  amount : ℚ
  mode : String
  remarks : String
  user_id : String
deriving DecidableEq, Repr

/-- Result of `adjust_stock`: the source returns `(False, "Item not found")`,
`(False, "Insufficient stock")` or `(True, new_qty)`. -/
inductive AdjustResult
  | ok (newQty : ℚ)
  | itemNotFound
  | insufficientStock
deriving DecidableEq, Repr

/-- `inv[inv["item_id"].astype(str) == str(item_id)]` followed by
`row.index[0]`: the first row of the inventory with the given id. -/
def findItem (inv : List InvItem) (itemId : String) : Option InvItem :=
  inv.find? (fun r => r.item_id == itemId)

/-- `inv.loc[idx, "stock_qty"] = new`: write the stock quantity of the first
row with the given id. -/
def writeStock (inv : List InvItem) (itemId : String) (q : ℚ) : List InvItem :=
  match inv with
  | [] => []
  | r :: rs =>
    if r.item_id == itemId then { r with stock_qty := q } :: rs
    else r :: writeStock rs itemId q

/-- `app.py` `adjust_stock(item_id, delta)`. -/
def adjust_stock (inv : List InvItem) (itemId : String) (delta : ℚ) :
    List InvItem × AdjustResult :=
  match findItem inv itemId with
  | none => (inv, .itemNotFound)
  | some r =>
    let newQty := r.stock_qty + delta
    if newQty < 0 then (inv, .insufficientStock)
    else (writeStock inv itemId newQty, .ok newQty)

/-- `inv.loc[idx, [...]] = [...]` branch of `upsert_inventory`: overwrite every
field except `item_id` of the first row with the given id. -/
def overwriteItem (inv : List InvItem) (itemId itemName category unit : String)
    (stockQty rate : ℚ) (sp : ℤ) (minQty : ℚ) : List InvItem :=
  match inv with
  | [] => []
  | r :: rs =>
    if r.item_id == itemId then
      ⟨r.item_id, itemName, category, unit, stockQty, rate, sp, minQty⟩ :: rs
    else r :: overwriteItem rs itemId itemName category unit stockQty rate sp minQty

/-- `app.py` `upsert_inventory`: appends a new row or overwrites the existing
one; `selling_price` goes through `int(float(...))`, and no check whatever is
made on the sign of `stock_qty`. -/
def upsert_inventory (inv : List InvItem) (itemId itemName category unit : String)
    (stockQty rate sellingPrice minQty : ℚ) : List InvItem :=
  let sp : ℤ := truncInt sellingPrice
  match findItem inv itemId with
  | none => inv ++ [⟨itemId, itemName, category, unit, stockQty, rate, sp, minQty⟩]
  | some _ => overwriteItem inv itemId itemName category unit stockQty rate sp minQty

/-- `app.py` `record_purchase`: append the purchase row to the expenses table,
then adjust the stock upward; the append is unconditional. -/
def record_purchase (expenses : List ExpenseRow) (inv : List InvItem)
    (dt category itemName itemId : String) (qty rate : ℚ)
    (userId remarks : String) :
    List ExpenseRow × List InvItem × AdjustResult :=
  let amount := round2 (qty * rate)
  let expenses' := expenses ++
    [⟨dt, "Purchase", category, itemName, itemId, qty, rate, amount, userId, remarks⟩]
  let adj := adjust_stock inv itemId qty
  (expenses', adj.1, adj.2)

/-- `app.py` `record_order`: the order row is appended to the orders table
first, and only then is `adjust_stock(item_id, -qty)` called; there is no
rollback of the append when the adjustment fails. -/
def record_order (orders : List Order) (inv : List InvItem)
    (dt customerId itemId itemName : String) (qty rate sellingPrice : ℚ)
    (paymentMode userId remarks : String) :
    List Order × List InvItem × AdjustResult :=
  let sp : ℤ := truncInt sellingPrice
  let total := round2 (qty * sp)
  let balance := if pyLower (pyStrip paymentMode) == "credit" then total else 0
  let orders' := orders ++
    [⟨dt, customerId, itemId, itemName, qty, rate, sp, total, paymentMode, balance,
      userId, remarks⟩]
  let adj := adjust_stock inv itemId (-qty)
  (orders', adj.1, adj.2)

/-- `app.py` `record_payment`: append one payment row. -/
def record_payment (payments : List Payment)
    (dt customerId : String) (amount : ℚ) (mode remarks userId : String) :
    List Payment :=
  payments ++ [⟨dt, customerId, amount, mode, remarks, userId⟩]

end DailyShop

namespace DailyShop

/-! ### `app.py` : `compute_customer_balances`

The pandas pipeline `groupby("customer_id").sum()` over the credit orders and
over the payments, outer-aligned by `pd.concat(..., axis=1).fillna(0.0)`, with
`pending_balance` the difference, finally `sort_values("pending_balance",
ascending=False)`.  A group-by is modelled relationally: one entry per distinct
key, carrying the sum of the grouped column over the rows with that key. -/

structure BalanceRow where
  customer_id : String
  credit_sales_total : ℚ
  payments_total : ℚ
  pending_balance : ℚ
deriving DecidableEq, Repr

/-- A result table: its column header together with its rows. -/
structure BalanceTable where
  cols : List String
  rows : List BalanceRow
deriving DecidableEq, Repr

def balanceCols : List String :=
  ["customer_id", "credit_sales_total", "payments_total", "pending_balance"]

/-- `orders["payment_mode"].astype(str).str.lower() == "credit"`. -/
def isCreditOrder (o : Order) : Bool := pyLower o.payment_mode == "credit"

/-- `groupby(key).sum()` over a list of (key, value) pairs: one entry per
distinct key with the sum of the values at that key. -/
def groupSum (pairs : List (String × ℚ)) : List (String × ℚ) :=
  (pairs.map Prod.fst).dedup.map
    (fun k => (k, ((pairs.filter (fun p => p.1 == k)).map Prod.snd).sum))

/-- Alignment of a grouped series on a key, `fillna(0.0)`: the value stored at
the key, or `0` when the key is absent. -/
def lookupD (l : List (String × ℚ)) (k : String) : ℚ :=
  match l.find? (fun p => p.1 == k) with
  | some p => p.2
  | none => 0

/-- `sort_values("pending_balance", ascending=False)` comparison. -/
def pendingGe (a b : BalanceRow) : Bool := decide (b.pending_balance ≤ a.pending_balance)

/-- `app.py` `compute_customer_balances()`. -/
def compute_customer_balances (orders : List Order) (payments : List Payment) :
    BalanceTable :=
  if orders = [] ∧ payments = [] then ⟨balanceCols, []⟩
  else
    let creditSum := groupSum ((orders.filter isCreditOrder).map
      (fun o => (o.customer_id, o.total)))
    let paySum := groupSum (payments.map (fun p => (p.customer_id, p.amount)))
    let keys := (creditSum.map Prod.fst ++ paySum.map Prod.fst).dedup
    let rows := keys.map (fun c =>
      ⟨c, lookupD creditSum c, lookupD paySum c,
        lookupD creditSum c - lookupD paySum c⟩)
    ⟨balanceCols, rows.mergeSort pendingGe⟩

/-- Specification-side total: the sum of `total` over the orders of a customer whose
payment mode is `Credit` case-insensitively. -/
def specCreditTotal (orders : List Order) (c : String) : ℚ :=
  ((orders.filter (fun o => o.customer_id == c && isCreditOrder o)).map Order.total).sum

/-- Specification-side total: the sum of `amount` over the payments of a customer. -/
def specPaymentsTotal (payments : List Payment) (c : String) : ℚ :=
  ((payments.filter (fun p => p.customer_id == c)).map Payment.amount).sum

end DailyShop

namespace MyApp

/-! ### `myapp.py` : data model and inventory persistence

The `myapp.py` variant differs from `app.py` in its schemas (inventory has an
`Area` column and a `sell_price` column kept numeric, orders and payments are
keyed by `(mobile, customer_name)`), and in that every inventory write goes
through `save_inventory_df`, which re-applies `round_to_5_int` to the
`sell_price` of every row. -/

structure MyInvItem where
  item_id : String
  item_name : String
  area : String
  category : String
  unit : String
  stock_qty : ℚ
  rate : ℚ
  min_qty : ℚ
  sell_price : ℚ
deriving DecidableEq, Repr

structure MyOrder where
  order_id : String
  date : String
  customer_name : String
  mobile : String
  item_id : String
  item_name : String
  category : String
  qty : ℚ
  price : ℚ
  total : ℚ
  payment_mode : String
  status : String
deriving DecidableEq, Repr

structure MyPayment where
  payment_id : String
  date : String
  customer_name : String
  mobile : String
  amount : ℚ
  remarks : String
deriving DecidableEq, Repr

/-- `myapp.py` `round_to_5_int(x)`: `int(round(x / 5.0) * 5)`, with the Python
banker-rounding `round`. -/
def round_to_5_int (x : ℚ) : ℤ := 5 * rhe (x / 5)

/-- `myapp.py` `save_inventory_df(df)`: the table as persisted — the
`sell_price` of every row is replaced by `round_to_5_int` of itself. -/
def save_inventory_df (df : List MyInvItem) : List MyInvItem :=
  df.map (fun r => { r with sell_price := (round_to_5_int r.sell_price : ℚ) })

/-- `inv.loc[idx, "stock_qty"] = new` on the first row with the given id. -/
def writeStockMy (inv : List MyInvItem) (itemId : String) (q : ℚ) : List MyInvItem :=
  match inv with
  | [] => []
  | r :: rs =>
    if r.item_id == itemId then { r with stock_qty := q } :: rs
    else r :: writeStockMy rs itemId q

/-- `myapp.py` `adjust_stock(item_id, delta)`: same check as `app.py`, but the
successful write is persisted through `save_inventory_df`. -/
def adjust_stock (inv : List MyInvItem) (itemId : String) (delta : ℚ) :
    List MyInvItem × DailyShop.AdjustResult :=
  match inv.find? (fun r => r.item_id == itemId) with
  | none => (inv, .itemNotFound)
  | some r =>
    let newQty := r.stock_qty + delta
    if newQty < 0 then (inv, .insufficientStock)
    else (save_inventory_df (writeStockMy inv itemId newQty), .ok newQty)

structure MyBalanceRow where
  mobile : String
  customer_name : String
  credit_sales_total : ℚ
  payments_total : ℚ
  pending_balance : ℚ
deriving DecidableEq, Repr

structure MyBalanceTable where
  cols : List String
  rows : List MyBalanceRow
deriving DecidableEq, Repr

def myBalanceCols : List String :=
  ["mobile", "customer_name", "credit_sales_total", "payments_total", "pending_balance"]

/-- `groupby(["mobile","customer_name"]).sum()` over (key-pair, value) rows. -/
def groupSum2 (pairs : List ((String × String) × ℚ)) : List ((String × String) × ℚ) :=
  (pairs.map Prod.fst).dedup.map
    (fun k => (k, ((pairs.filter (fun p => p.1 == k)).map Prod.snd).sum))

def lookupD2 (l : List ((String × String) × ℚ)) (k : String × String) : ℚ :=
  match l.find? (fun p => p.1 == k) with
  | some p => p.2
  | none => 0

def myPendingGe (a b : MyBalanceRow) : Bool :=
  decide (b.pending_balance ≤ a.pending_balance)

/-- `myapp.py` `compute_customer_balances()`: credit orders and payments grouped
by `(mobile, customer_name)`, outer-merged, missing side filled with `0`,
sorted descending by `pending_balance`; two early returns produce the empty
five-column table. -/
def compute_customer_balances (orders : List MyOrder) (payments : List MyPayment) :
    MyBalanceTable :=
  if orders = [] ∧ payments = [] then ⟨myBalanceCols, []⟩
  else
    let creditSum := groupSum2
      ((orders.filter (fun o => pyLower o.payment_mode == "credit")).map
        (fun o => ((o.mobile, o.customer_name), o.total)))
    let paySum := groupSum2 (payments.map (fun p => ((p.mobile, p.customer_name), p.amount)))
    if creditSum = [] ∧ paySum = [] then ⟨myBalanceCols, []⟩
    else
      let keys := (creditSum.map Prod.fst ++ paySum.map Prod.fst).dedup
      let rows := keys.map (fun k =>
        ⟨k.1, k.2, lookupD2 creditSum k, lookupD2 paySum k,
          lookupD2 creditSum k - lookupD2 paySum k⟩)
      ⟨myBalanceCols, rows.mergeSort myPendingGe⟩

end MyApp

namespace Mod

/-! ### `modules/inventory.py` : the sqlite variant

The inventory table of the sqlite variant is modelled as an association list
from item name to quantity.  `UPDATE inventory SET quantity = ? WHERE item = ?`
rewrites every row whose key is the item; `SELECT quantity ... fetchone()`
reads the first. -/

/-- `UPDATE inventory SET quantity = newQ WHERE item = ?`. -/
def setQty (db : List (String × ℤ)) (item : String) (newQ : ℤ) : List (String × ℤ) :=
  db.map (fun p => if p.1 == item then (p.1, newQ) else p)

/-- `modules/inventory.py` `update_inventory(item, quantity_change)`. -/
def update_inventory (db : List (String × ℤ)) (item : String) (qc : ℤ) :
    List (String × ℤ) × Bool :=
  match db.find? (fun p => p.1 == item) with
  | some p =>
    if p.2 + qc < 0 then (db, false)
    else (setQty db item (p.2 + qc), true)
  | none =>
    if qc < 0 then (db, false)
    else (db ++ [(item, qc)], true)

end Mod

namespace Csv

/-! ### `app.py` record store : `save_csv` / `load_csv`

A persisted table is a header line followed by one line per row; a line is a
list of characters; a cell is `Option String`, `none` standing for a missing
value (pandas `NaN`/`None`).  `DataFrame.to_csv` writes a missing cell and the
empty string as an empty field and any other delimiter-free cell verbatim;
`pd.read_csv(..., dtype=str)` reads a field back as a string unless it is one
of the default NA tokens, which come back missing.  `load_csv(path, cols)`
then backfills any listed column absent from the file with missing values and
reorders to `cols` (`df[cols]`). -/

/-- The default NA token list of `pandas.read_csv`: fields equal to one of
these are read back as missing values even under `dtype=str`. -/
def naTokens : List String :=
  ["", "#N/A", "#N/A N/A", "#NA", "-1.#IND", "-1.#QNAN", "-NaN", "-nan",
   "1.#IND", "1.#QNAN", "<NA>", "N/A", "NA", "NULL", "NaN", "None", "n/a",
   "nan", "null"]

def cellToChars : Option String → List Char
  | none => []
  | some s => s.data

def charsToCell (cs : List Char) : Option String :=
  if String.mk cs ∈ naTokens then none else some (String.mk cs)

/-- One data line of `to_csv`: the cells joined by commas. -/
def encodeLine (cells : List (Option String)) : List Char :=
  [','].intercalate (cells.map cellToChars)

/-- One data line of `read_csv`: split at commas, NA tokens become missing. -/
def decodeLine (line : List Char) : List (Option String) :=
  (line.splitOn ',').map charsToCell

/-- The header line of `to_csv`. -/
def encodeHeader (cols : List String) : List Char :=
  [','].intercalate (cols.map String.data)

/-- The header line of `read_csv`. -/
def decodeHeader (line : List Char) : List String :=
  (line.splitOn ',').map String.mk

/-- An in-memory table: column header plus rows of cells. -/
structure Table where
  cols : List String
  rows : List (List (Option String))
deriving DecidableEq, Repr

/-- `app.py` `save_csv(df, path)`: `df.to_csv(path, index=False)` — the file is
the header line followed by the encoded rows. -/
def save_csv (t : Table) : List (List Char) :=
  encodeHeader t.cols :: t.rows.map encodeLine

/-- `df[cols]` on a parsed row: for each requested column take the cell under
the equally-named file column, or a missing value if the file lacks it (the
backfill loop `df[c] = None`). -/
def selectCols (fileCols : List String) (cols : List String)
    (row : List (Option String)) : List (Option String) :=
  cols.map (fun c =>
    match (fileCols.zip row).find? (fun p => p.1 == c) with
    | some p => p.2
    | none => none)

/-- `app.py` `load_csv(path, cols)`: parse the file (an absent file yields the
empty table with the canonical header) and return the table restricted and
reordered to `cols`. -/
def load_csv (file : List (List Char)) (cols : List String) : Table :=
  match file with
  | [] => ⟨cols, []⟩
  | header :: body =>
    let fileCols := decodeHeader header
    ⟨cols, body.map (fun line => selectCols fileCols cols (decodeLine line))⟩

/-- A cell surviving the CSV round trip unchanged: a present string, free of
the delimiter, and not an NA token. -/
def goodCellB (c : Option String) : Bool :=
  match c with
  | none => false
  | some s => !(s.data.contains ',') && !(naTokens.contains s)

/-- The canonical schemas of the `SCHEMA` table of `app.py`. -/
def appSchemas : List (List String) :=
  [["user_id", "name", "role", "mobile", "password_hash"],
   ["item_id", "item_name", "category", "unit", "stock_qty", "rate",
    "selling_price", "min_qty"],
   ["date", "customer_id", "item_id", "item_name", "qty", "rate",
    "selling_price", "total", "payment_mode", "balance", "user_id", "remarks"],
   ["date", "type", "category", "item", "item_id", "qty", "rate", "amount",
    "user_id", "remarks"],
   ["date", "customer_id", "amount", "mode", "remarks", "user_id"]]

end Csv

/-! ### Spec-side reference definitions and concrete fixtures -/

/-- Modelled from the spec: "round half away from zero" integer rounding, the
reference rounding policy named by the specification (for comparison with the
`round_to_5_int` of the source). -/
def rhaz (q : ℚ) : ℤ := if 0 ≤ q then ⌊q + 1/2⌋ else ⌈q - 1/2⌉

/-- Modelled from the spec: "round half away from zero to nearest 5". -/
def specRound5Away (x : ℚ) : ℤ := 5 * rhaz (x / 5)

namespace DailyShop

/-- Scenario fixture: the Milk item at stock 12. -/
def itemMilk : InvItem := ⟨"aaa11111", "Milk", "Dairy", "ltr", 12, 20, 25, 2⟩

def invMilk : List InvItem := [itemMilk]

/-- Scenario fixture: the Milk item at stock 15. -/
def itemMilk15 : InvItem := ⟨"aaa11111", "Milk", "Dairy", "ltr", 15, 20, 25, 2⟩

def invMilk15 : List InvItem := [itemMilk15]

/-- Scenario fixture: a recorded Credit order of total 75 for customer
9000000001. -/
def ordCredit75 : Order :=
  ⟨"2024-01-02", "9000000001", "aaa11111", "Milk", 3, 20, 25, 75, "Credit", 75, "u1", ""⟩

/-- Scenario fixture: a payment of 50 by customer 9000000001. -/
def payRow50 : Payment := ⟨"2024-01-03", "9000000001", 50, "Cash", "", "u1"⟩

end DailyShop

namespace MyApp

/-- Fixture: an item whose stock will be adjusted. -/
def itemA : MyInvItem := ⟨"a", "Tea", "", "Beverages", "pc", 5, 8, 1, 10⟩

/-- Fixture: an untouched item whose `sell_price` 7 is not a multiple of 5. -/
def itemB : MyInvItem := ⟨"b", "Snack", "", "Food", "pc", 5, 6, 1, 7⟩

def invAB : List MyInvItem := [itemA, itemB]

/-- Fixture: an inventory row carrying `sell_price = 2.5`. -/
def itemHalf : MyInvItem := ⟨"h", "Probe", "", "Misc", "pc", 1, 1, 1, 5/2⟩

end MyApp

namespace Csv

/-- The inventory schema of `app.py`. -/
def invCols : List String :=
  ["item_id", "item_name", "category", "unit", "stock_qty", "rate",
   "selling_price", "min_qty"]

/-- Fixture: an inventory-shaped table one of whose cells is the empty
string. -/
def tEmptyCell : Table :=
  ⟨invCols,
   [[some "a", some "Milk", some "", some "ltr", some "10", some "20.0",
     some "25", some "2"]]⟩

/-- Fixture: an inventory-shaped table all of whose cells survive the round
trip. -/
def tGood : Table :=
  ⟨invCols,
   [[some "a", some "Milk", some "Dairy", some "ltr", some "10", some "20.0",
     some "25", some "2"]]⟩

end Csv

/-! ### Helper lemmas for the Python rounding primitives -/

theorem rhe_eq_floor (q : ℚ) (f : ℤ) (h1 : (f : ℚ) ≤ q) (h2 : q < f + 1)
    (h3 : q - f < 1/2) : rhe q = f := by
  have hf : ⌊q⌋ = f := Int.floor_eq_iff.mpr ⟨h1, h2⟩
  simp only [rhe, hf]
  rw [if_pos h3]

theorem rhe_eq_ceil (q : ℚ) (f : ℤ) (h1 : (f : ℚ) ≤ q) (h2 : q < f + 1)
    (h3 : 1/2 < q - f) : rhe q = f + 1 := by
  have hf : ⌊q⌋ = f := Int.floor_eq_iff.mpr ⟨h1, h2⟩
  simp only [rhe, hf]
  rw [if_neg (by linarith), if_pos h3]

theorem rhe_tie_even (q : ℚ) (f : ℤ) (h1 : (f : ℚ) ≤ q) (h2 : q < f + 1)
    (h3 : q - f = 1/2) (h4 : Even f) : rhe q = f := by
  have hf : ⌊q⌋ = f := Int.floor_eq_iff.mpr ⟨h1, h2⟩
  simp only [rhe, hf]
  rw [if_neg (by rw [h3]; exact lt_irrefl _), if_neg (by rw [h3]; exact lt_irrefl _),
    if_pos h4]

theorem rhe_tie_odd (q : ℚ) (f : ℤ) (h1 : (f : ℚ) ≤ q) (h2 : q < f + 1)
    (h3 : q - f = 1/2) (h4 : ¬ Even f) : rhe q = f + 1 := by
  have hf : ⌊q⌋ = f := Int.floor_eq_iff.mpr ⟨h1, h2⟩
  simp only [rhe, hf]
  rw [if_neg (by rw [h3]; exact lt_irrefl _), if_neg (by rw [h3]; exact lt_irrefl _),
    if_neg h4]

/-- `rhe` never moves a rational by more than one half. -/
theorem abs_sub_rhe_le_half (q : ℚ) : |q - rhe q| ≤ 1/2 := by
  have hfl : (⌊q⌋ : ℚ) ≤ q := Int.floor_le q
  have hfu : q < ⌊q⌋ + 1 := Int.lt_floor_add_one q
  unfold rhe
  simp only []
  split
  · next h => rw [abs_le]; constructor <;> [linarith; linarith]
  · split
    · next h h' =>
      push_cast
      rw [abs_le]
      constructor <;> [linarith; linarith]
    · split
      · next h h' _ => rw [abs_le]; constructor <;> [linarith; linarith]
      · next h h' _ =>
        push_cast
        rw [abs_le]
        constructor <;> [linarith; linarith]

theorem truncInt_eval_nonneg (q : ℚ) (f : ℤ) (h0 : 0 ≤ q) (h1 : (f : ℚ) ≤ q)
    (h2 : q < f + 1) : truncInt q = f := by
  unfold truncInt
  rw [if_pos h0]
  exact Int.floor_eq_iff.mpr ⟨h1, h2⟩



/-! ### Lemmas about the stock ledger of `app.py` -/

namespace DailyShop

theorem findItem_writeStock (inv : List InvItem) (id : String) (r : InvItem) (q : ℚ)
    (h : findItem inv id = some r) :
    findItem (writeStock inv id q) id = some { r with stock_qty := q } := by
  induction inv with
  | nil => simp [findItem] at h
  | cons a tl ih =>
    by_cases ha : a.item_id == id
    · simp only [findItem, List.find?_cons, ha] at h
      cases h
      simp only [writeStock, if_pos ha]
      simp only [findItem, List.find?_cons, ha]
    · simp only [findItem, List.find?_cons, ha] at h
      simp only [writeStock, if_neg ha]
      simp only [findItem, List.find?_cons, ha]
      exact ih h

theorem mem_writeStock (inv : List InvItem) (id : String) (q : ℚ) (x : InvItem)
    (h : x ∈ writeStock inv id q) : x ∈ inv ∨ x.stock_qty = q := by
  induction inv with
  | nil => simp [writeStock] at h
  | cons a tl ih =>
    by_cases ha : a.item_id == id
    · simp only [writeStock, if_pos ha, List.mem_cons] at h
      rcases h with h | h
      · right; rw [h]
      · left; exact List.mem_cons_of_mem _ h
    · simp only [writeStock, if_neg ha, List.mem_cons] at h
      rcases h with h | h
      · left; rw [h]; exact List.mem_cons_self _ _
      · rcases ih h with h' | h'
        · left; exact List.mem_cons_of_mem _ h'
        · right; exact h'

theorem adjust_stock_not_found (inv : List InvItem) (id : String) (delta : ℚ)
    (h : findItem inv id = none) :
    adjust_stock inv id delta = (inv, .itemNotFound) := by
  unfold adjust_stock
  rw [h]

theorem adjust_stock_insufficient (inv : List InvItem) (id : String) (delta : ℚ)
    (r : InvItem) (h : findItem inv id = some r) (hneg : r.stock_qty + delta < 0) :
    adjust_stock inv id delta = (inv, .insufficientStock) := by
  unfold adjust_stock
  rw [h]
  simp only [if_pos hneg]

theorem adjust_stock_ok (inv : List InvItem) (id : String) (delta : ℚ)
    (r : InvItem) (h : findItem inv id = some r) (hpos : ¬ r.stock_qty + delta < 0) :
    adjust_stock inv id delta =
      (writeStock inv id (r.stock_qty + delta), .ok (r.stock_qty + delta)) := by
  unfold adjust_stock
  rw [h]
  simp only [if_neg hpos]

theorem adjust_stock_preserves_nonneg (inv : List InvItem) (id : String) (delta : ℚ)
    (h : ∀ r ∈ inv, 0 ≤ r.stock_qty) :
    ∀ r ∈ (adjust_stock inv id delta).1, 0 ≤ r.stock_qty := by
  unfold adjust_stock
  cases hf : findItem inv id with
  | none => simpa using h
  | some r0 =>
    dsimp only []
    split
    · simpa using h
    · next hge =>
      intro x hx
      rcases mem_writeStock _ _ _ _ hx with hx' | hx'
      · exact h x hx'
      · rw [hx']
        exact le_of_not_lt hge

end DailyShop

namespace DailyShop

/-- Claim C5: for every inventory item with current stock quantity s,
`adjust_stock(item_id, -s)` succeeds and the resulting stock quantity is
exactly 0, while `adjust_stock(item_id, -d)` for any d strictly greater than s
fails with InsufficientStock and leaves the stock of the item unchanged (the table
is not written). -/
theorem adjust_stock_boundary (inv : List InvItem) (id : String) (r : InvItem)
    (h : findItem inv id = some r) :
    adjust_stock inv id (-r.stock_qty) = (writeStock inv id 0, .ok 0) ∧
    findItem (writeStock inv id 0) id = some { r with stock_qty := 0 } ∧
    ∀ d : ℚ, r.stock_qty < d → adjust_stock inv id (-d) = (inv, .insufficientStock) := by
  refine ⟨?_, findItem_writeStock inv id r 0 h, ?_⟩
  · have hok := adjust_stock_ok inv id (-r.stock_qty) r h (by simp)
    simpa using hok
  · intro d hd
    exact adjust_stock_insufficient inv id (-d) r h (by linarith)

/-- Witness for C5 at the Milk fixture (stock 12): emptying succeeds with new
quantity 0, overdrawing by 13 fails and does not write. -/
theorem adjust_stock_boundary_witness :
    adjust_stock invMilk "aaa11111" (-(12:ℚ)) = (writeStock invMilk "aaa11111" 0, .ok 0) ∧
    adjust_stock invMilk "aaa11111" (-(13:ℚ)) = (invMilk, .insufficientStock) := by
  have h : findItem invMilk "aaa11111" = some itemMilk := by
    simp [invMilk, findItem, List.find?_cons, itemMilk]
  have main := adjust_stock_boundary invMilk "aaa11111" itemMilk h
  refine ⟨?_, main.2.2 13 (by norm_num [itemMilk])⟩
  have h1 := main.1
  simpa [itemMilk] using h1

/-- Claim C1 counterexample, scenario 4 of the spec: a Cash order of qty 20 on
an item with stock 12 does fail with InsufficientStock and leaves the
Inventory unchanged, but the Orders table does NOT remain unchanged — the
order row has already been appended when the stock check fails. -/
theorem record_order_scenario4_partial_row :
    (record_order [] invMilk "2024-01-04" "9000000001" "aaa11111" "Milk"
        20 20 25 "Cash" "u1" "").2.2 = .insufficientStock ∧
    (record_order [] invMilk "2024-01-04" "9000000001" "aaa11111" "Milk"
        20 20 25 "Cash" "u1" "").2.1 = invMilk ∧
    (record_order [] invMilk "2024-01-04" "9000000001" "aaa11111" "Milk"
        20 20 25 "Cash" "u1" "").1 ≠ [] := by
  have h : findItem invMilk "aaa11111" = some itemMilk := by
    simp [invMilk, findItem, List.find?_cons, itemMilk]
  have hins := adjust_stock_insufficient invMilk "aaa11111" (-20) itemMilk h
    (by norm_num [itemMilk])
  refine ⟨?_, ?_, ?_⟩ <;> simp [record_order, hins]

/-- Claim C1 amended: when the ordered quantity exceeds the stock of the item,
`record_order` returns InsufficientStock and the Inventory table is unchanged,
but the Orders table gains the order row: `record_order` appends first and
checks stock second, with no rollback. -/
theorem record_order_insufficient_behavior (orders : List Order) (inv : List InvItem)
    (dt cid iid iname : String) (qty rate sp : ℚ) (pm uid rem : String)
    (r : InvItem) (h : findItem inv iid = some r) (hq : r.stock_qty < qty) :
    record_order orders inv dt cid iid iname qty rate sp pm uid rem =
      (orders ++ [⟨dt, cid, iid, iname, qty, rate, truncInt sp,
          round2 (qty * truncInt sp), pm,
          if pyLower (pyStrip pm) == "credit" then round2 (qty * truncInt sp) else 0,
          uid, rem⟩],
       inv, .insufficientStock) := by
  have hins := adjust_stock_insufficient inv iid (-qty) r h (by linarith)
  simp [record_order, hins]

/-- Witness for the amended C1 at the input of scenario 4. -/
theorem record_order_insufficient_behavior_witness :
    record_order [] invMilk "2024-01-04" "9000000001" "aaa11111" "Milk"
        20 20 25 "Cash" "u1" "" =
      ([⟨"2024-01-04", "9000000001", "aaa11111", "Milk", 20, 20, truncInt 25,
          round2 (20 * truncInt 25), "Cash",
          if pyLower (pyStrip "Cash") == "credit" then round2 (20 * truncInt 25) else 0,
          "u1", ""⟩],
       invMilk, .insufficientStock) := by
  have h : findItem invMilk "aaa11111" = some itemMilk := by
    simp [invMilk, findItem, List.find?_cons, itemMilk]
  have main := record_order_insufficient_behavior [] invMilk "2024-01-04" "9000000001"
    "aaa11111" "Milk" 20 20 25 "Cash" "u1" "" itemMilk h (by norm_num [itemMilk])
  simpa using main

end DailyShop

namespace DailyShop

/-- Claim C2 counterexample: `upsert_inventory` performs no sign check on the
stock quantity it is given, so after this core operation the inventory holds a
row with a negative `stock_qty`. -/
theorem upsert_inventory_negative_stock :
    ¬ ∀ r ∈ upsert_inventory [] "x1" "Ghee" "Dairy" "kg" (-1) 0 0 0,
        0 ≤ r.stock_qty := by
  intro hall
  have hmem : (⟨"x1", "Ghee", "Dairy", "kg", -1, 0, truncInt 0, 0⟩ : InvItem) ∈
      upsert_inventory [] "x1" "Ghee" "Dairy" "kg" (-1) 0 0 0 := by
    simp [upsert_inventory, findItem]
  have := hall _ hmem
  norm_num at this

/-- Claim C2 amended: the adjust-based operations (`adjust_stock`,
`record_purchase`, `record_order`) preserve non-negativity of every
`stock_qty`, and an adjustment that would drive a quantity negative is
rejected with no write; `upsert_inventory`, by contrast, writes whatever
stock quantity it is given. -/
theorem stock_nonneg_adjust_ops :
    (∀ (inv : List InvItem) (id : String) (delta : ℚ),
      (∀ r ∈ inv, 0 ≤ r.stock_qty) →
        ∀ r ∈ (adjust_stock inv id delta).1, 0 ≤ r.stock_qty) ∧
    (∀ (exps : List ExpenseRow) (inv : List InvItem) (dt cat iname iid : String)
        (qty rate : ℚ) (uid rem : String),
      (∀ r ∈ inv, 0 ≤ r.stock_qty) →
        ∀ r ∈ (record_purchase exps inv dt cat iname iid qty rate uid rem).2.1,
          0 ≤ r.stock_qty) ∧
    (∀ (ords : List Order) (inv : List InvItem) (dt cid iid iname : String)
        (qty rate sp : ℚ) (pm uid rem : String),
      (∀ r ∈ inv, 0 ≤ r.stock_qty) →
        ∀ r ∈ (record_order ords inv dt cid iid iname qty rate sp pm uid rem).2.1,
          0 ≤ r.stock_qty) ∧
    (∀ (inv : List InvItem) (id : String) (delta : ℚ) (r0 : InvItem),
      findItem inv id = some r0 → r0.stock_qty + delta < 0 →
        adjust_stock inv id delta = (inv, .insufficientStock)) := by
  refine ⟨adjust_stock_preserves_nonneg, ?_, ?_, adjust_stock_insufficient⟩
  · intro exps inv dt cat iname iid qty rate uid rem h
    have := adjust_stock_preserves_nonneg inv iid qty h
    simpa [record_purchase] using this
  · intro ords inv dt cid iid iname qty rate sp pm uid rem h
    have := adjust_stock_preserves_nonneg inv iid (-qty) h
    simpa [record_order] using this

/-- Witness for the amended C2 at the Milk fixture. -/
theorem stock_nonneg_adjust_ops_witness :
    (∀ r ∈ (adjust_stock invMilk "aaa11111" (-3)).1, 0 ≤ r.stock_qty) ∧
    adjust_stock invMilk "aaa11111" (-13) = (invMilk, .insufficientStock) := by
  have hnn : ∀ r ∈ invMilk, 0 ≤ r.stock_qty := by
    intro r hr
    simp [invMilk] at hr
    rw [hr]
    norm_num [itemMilk]
  have h : findItem invMilk "aaa11111" = some itemMilk := by
    simp [invMilk, findItem, List.find?_cons, itemMilk]
  exact ⟨stock_nonneg_adjust_ops.1 invMilk "aaa11111" (-3) hnn,
    stock_nonneg_adjust_ops.2.2.2 invMilk "aaa11111" (-13) itemMilk h
      (by norm_num [itemMilk])⟩

end DailyShop

theorem round2_eq (q : ℚ) (n : ℤ) (h : rhe (q * 100) = n) : round2 q = n / 100 := by
  unfold round2
  rw [h]

namespace DailyShop

/-- Claim C4 amended: when the item exists and has stock at least qty, the
appended Order row has `total = round2(qty * int(price))` — the unit price is
first truncated to an integer and the product rounded to two decimals — with
`balance = total` exactly when the payment mode, stripped and lowercased, is
"credit", and 0 otherwise; the stock of the item decreases by exactly qty.  (On the
integral scenario inputs this coincides with `total = qty * price`.) -/
theorem record_order_success_row_and_stock (orders : List Order) (inv : List InvItem)
    (dt cid iid iname : String) (qty rate sp : ℚ) (pm uid rem : String)
    (r : InvItem) (h : findItem inv iid = some r) (hq : qty ≤ r.stock_qty) :
    record_order orders inv dt cid iid iname qty rate sp pm uid rem =
      (orders ++ [⟨dt, cid, iid, iname, qty, rate, truncInt sp,
          round2 (qty * truncInt sp), pm,
          if pyLower (pyStrip pm) == "credit" then round2 (qty * truncInt sp) else 0,
          uid, rem⟩],
       writeStock inv iid (r.stock_qty - qty), .ok (r.stock_qty - qty)) ∧
    findItem (writeStock inv iid (r.stock_qty - qty)) iid =
      some { r with stock_qty := r.stock_qty - qty } := by
  have hok := adjust_stock_ok inv iid (-qty) r h (by linarith)
  refine ⟨?_, findItem_writeStock inv iid r (r.stock_qty - qty) h⟩
  rw [show r.stock_qty - qty = r.stock_qty + -qty by ring]
  simp [record_order, hok]

/-- Witness for the amended C4, scenario 2 of the spec: a Credit order of
qty 3 at price 25 on stock 15 yields stock 12, total 75 and balance 75. -/
theorem record_order_success_row_and_stock_witness :
    record_order [] invMilk15 "2024-01-02" "9000000001" "aaa11111" "Milk"
        3 20 25 "Credit" "u1" "" =
      ([⟨"2024-01-02", "9000000001", "aaa11111", "Milk", 3, 20, 25, 75,
          "Credit", 75, "u1", ""⟩],
       writeStock invMilk15 "aaa11111" 12, .ok 12) ∧
    findItem (writeStock invMilk15 "aaa11111" 12) "aaa11111" =
      some ⟨"aaa11111", "Milk", "Dairy", "ltr", 12, 20, 25, 2⟩ := by
  have h : findItem invMilk15 "aaa11111" = some itemMilk15 := by
    simp [invMilk15, findItem, List.find?_cons, itemMilk15]
  have ht : truncInt (25 : ℚ) = 25 :=
    truncInt_eval_nonneg _ _ (by norm_num) (by norm_num) (by norm_num)
  have hr : round2 ((3 : ℚ) * ((25 : ℤ) : ℚ)) = 75 := by
    have := round2_eq ((3 : ℚ) * ((25 : ℤ) : ℚ)) 7500
      (rhe_eq_floor _ _ (by push_cast; norm_num) (by push_cast; norm_num)
        (by push_cast; norm_num))
    rw [this]
    norm_num
  have hpm : (pyLower (pyStrip "Credit") == "credit") = true := by decide
  have main := record_order_success_row_and_stock [] invMilk15 "2024-01-02"
    "9000000001" "aaa11111" "Milk" 3 20 25 "Credit" "u1" "" itemMilk15 h
    (by norm_num [itemMilk15])
  rw [ht] at main
  rw [hr] at main
  rw [hpm] at main
  simpa [itemMilk15, show (15 : ℚ) - 3 = 12 by norm_num] using main

/-- Claim C4 counterexample: `record_order` computes the row total from the
price truncated to an integer (`int(float(selling_price))`), so an order of
qty 1 at price 2.5 is appended with total 2, not qty x price = 2.5. -/
theorem record_order_total_truncates_price :
    ((record_order [] invMilk "2024-01-05" "9000000001" "aaa11111" "Milk"
        1 0 (5/2) "Cash" "u1" "").1.map Order.total) = [2] ∧
    (2 : ℚ) ≠ 1 * (5/2) := by
  have ht : truncInt ((5 : ℚ) / 2) = 2 :=
    truncInt_eval_nonneg _ _ (by norm_num) (by norm_num) (by norm_num)
  have hr : round2 ((1 : ℚ) * ((2 : ℤ) : ℚ)) = 2 := by
    have := round2_eq ((1 : ℚ) * ((2 : ℤ) : ℚ)) 200
      (rhe_eq_floor _ _ (by push_cast; norm_num) (by push_cast; norm_num)
        (by push_cast; norm_num))
    rw [this]
    norm_num
  constructor
  · simp only [record_order, ht, hr]
    simp
  · norm_num

end DailyShop

namespace MyApp

theorem round_to_5_int_half : round_to_5_int (5/2) = 0 := by
  have h1 : rhe ((5 : ℚ) / 2 / 5) = 0 := by
    rw [show (5 : ℚ) / 2 / 5 = 1/2 by norm_num]
    exact rhe_tie_even _ 0 (by norm_num) (by norm_num) (by norm_num) (by decide)
  unfold round_to_5_int
  rw [h1]
  norm_num

theorem round_to_5_int_sevenhalf : round_to_5_int (15/2) = 10 := by
  have h1 : rhe ((15 : ℚ) / 2 / 5) = 2 := by
    rw [show (15 : ℚ) / 2 / 5 = 3/2 by norm_num]
    have := rhe_tie_odd (3/2) 1 (by norm_num) (by norm_num) (by norm_num) (by decide)
    simpa using this
  unfold round_to_5_int
  rw [h1]
  norm_num

theorem round_to_5_int_seven : round_to_5_int 7 = 5 := by
  have h1 : rhe ((7 : ℚ) / 5) = 1 := by
    exact rhe_eq_floor _ 1 (by norm_num) (by norm_num) (by norm_num)
  unfold round_to_5_int
  rw [h1]
  norm_num

theorem round_to_5_int_ten : round_to_5_int 10 = 10 := by
  have h1 : rhe ((10 : ℚ) / 5) = 2 := by
    exact rhe_eq_floor _ 2 (by norm_num) (by norm_num) (by norm_num)
  unfold round_to_5_int
  rw [h1]
  norm_num

/-- Claim C8 counterexample: `round_to_5_int` uses the Python banker `round`, so
a `sell_price` of 2.5 is persisted by `save_inventory_df` as 0, while the
claimed round-half-away-from-zero policy (`specRound5Away`) gives 5. -/
theorem round_to_5_half_not_away :
    round_to_5_int (5/2) = 0 ∧ specRound5Away (5/2) = 5 ∧
    (save_inventory_df [itemHalf]).map MyInvItem.sell_price = [0] ∧
    (0 : ℤ) ≠ 5 := by
  refine ⟨round_to_5_int_half, ?_, ?_, by norm_num⟩
  · unfold specRound5Away rhaz
    rw [show (5 : ℚ) / 2 / 5 = 1/2 by norm_num, if_pos (by norm_num : (0:ℚ) ≤ 1/2),
      show (1 : ℚ) / 2 + 1/2 = 1 by norm_num]
    rw [Int.floor_one]
    norm_num
  · simp [save_inventory_df, itemHalf, round_to_5_int_half]

/-- Claim C8 amended: the `sell_price` persisted on inventory save is
`round_to_5_int` of the in-memory value for every row — a multiple of 5 at
distance at most 2.5 from the input — with ties rounded half to EVEN multiples
(the Python banker rounding), so 7.5 rounds to 10 but 2.5 rounds to 0. -/
theorem sell_price_rounding_half_even :
    (∀ df : List MyInvItem, (save_inventory_df df).map MyInvItem.sell_price =
       df.map (fun r => ((round_to_5_int r.sell_price : ℤ) : ℚ))) ∧
    (∀ x : ℚ, (5 : ℤ) ∣ round_to_5_int x) ∧
    (∀ x : ℚ, |x - (round_to_5_int x : ℚ)| ≤ 5/2) ∧
    round_to_5_int (15/2) = 10 ∧ round_to_5_int (5/2) = 0 := by
  refine ⟨?_, ?_, ?_, round_to_5_int_sevenhalf, round_to_5_int_half⟩
  · intro df
    simp [save_inventory_df]
  · intro x
    exact dvd_mul_right 5 _
  · intro x
    have h := abs_sub_rhe_le_half (x/5)
    unfold round_to_5_int
    have heq : x - ((5 * rhe (x/5) : ℤ) : ℚ) = 5 * (x/5 - (rhe (x/5) : ℚ)) := by
      push_cast
      ring
    rw [heq, abs_mul, abs_of_nonneg (by norm_num : (0:ℚ) ≤ 5)]
    linarith

/-- Claim C9: in the myapp variant, adjusting the stock of item "a" rewrites
the whole inventory through `save_inventory_df`, which re-rounds the
`sell_price` of EVERY row: the untouched item "b" has its persisted
`sell_price` changed from 7 to 5. -/
theorem myapp_adjust_rewrites_sell_price :
    (adjust_stock invAB "a" (-1)).2 = .ok 4 ∧
    (adjust_stock invAB "a" (-1)).1.map MyInvItem.sell_price = [10, 5] ∧
    invAB.map MyInvItem.sell_price = [10, 7] ∧
    (adjust_stock invAB "a" (-1)).1.map MyInvItem.stock_qty = [4, 5] ∧
    ([10, 5] : List ℚ) ≠ [10, 7] := by
  have hfind : invAB.find? (fun r => r.item_id == "a") = some itemA := by
    simp [invAB, List.find?_cons, itemA]
  have hlt : ¬ itemA.stock_qty + (-1) < 0 := by norm_num [itemA]
  have heval : adjust_stock invAB "a" (-1) =
      (save_inventory_df (writeStockMy invAB "a" (itemA.stock_qty + (-1))), .ok (itemA.stock_qty + (-1))) := by
    unfold adjust_stock
    rw [hfind]
    simp only [if_neg hlt]
  have h4 : itemA.stock_qty + (-1) = 4 := by norm_num [itemA]
  rw [h4] at heval
  have hws : writeStockMy invAB "a" 4 = [{ itemA with stock_qty := 4 }, itemB] := by
    simp [invAB, writeStockMy, itemA, itemB]
  refine ⟨by rw [heval], ?_, by simp [invAB, itemA, itemB], ?_, by simp⟩
  · rw [heval, hws]
    simp [save_inventory_df, itemA, itemB, round_to_5_int_ten, round_to_5_int_seven]
  · rw [heval, hws]
    simp [save_inventory_df, itemA, itemB]

end MyApp

namespace Mod

/-- Claim C10: in the sqlite variant, `update_inventory(item, qc)` on an item
absent from the inventory inserts a new row with quantity qc and returns True
whenever qc is non-negative, and returns False writing nothing when qc is
negative: unknown items are auto-created, not rejected. -/
theorem update_inventory_unknown_item (db : List (String × ℤ)) (item : String)
    (qc : ℤ) (h : ∀ p ∈ db, p.1 ≠ item) :
    (0 ≤ qc → update_inventory db item qc = (db ++ [(item, qc)], true)) ∧
    (qc < 0 → update_inventory db item qc = (db, false)) := by
  have hf : db.find? (fun p => p.1 == item) = none := by
    rw [List.find?_eq_none]
    intro p hp
    simpa using h p hp
  constructor
  · intro hqc
    unfold update_inventory
    rw [hf]
    simp only [if_neg (not_lt.mpr hqc)]
  · intro hqc
    unfold update_inventory
    rw [hf]
    simp only [if_pos hqc]

/-- Witness for C10 on a one-row database and the unknown item "y". -/
theorem update_inventory_unknown_item_witness :
    update_inventory [("x", 3)] "y" 2 = ([("x", 3), ("y", 2)], true) ∧
    update_inventory [("x", 3)] "y" (-1) = ([("x", 3)], false) := by
  have h : ∀ p ∈ [("x", (3:ℤ))], p.1 ≠ "y" := by decide
  have h1 := (update_inventory_unknown_item [("x", 3)] "y" 2 h).1 (by norm_num)
  have h2 := (update_inventory_unknown_item [("x", 3)] "y" (-1) h).2 (by norm_num)
  exact ⟨by simpa using h1, h2⟩

end Mod

/-- Claim C6 counterexample: in the `myapp.py` variant, the empty-input result
of `compute_customer_balances` is NOT headed by the four columns named in the
claim — its header is (mobile, customer_name, credit_sales_total,
payments_total, pending_balance). -/
theorem myapp_balances_empty_columns_differ :
    (MyApp.compute_customer_balances [] []).cols ≠
      ["customer_id", "credit_sales_total", "payments_total", "pending_balance"] := by
  simp [MyApp.compute_customer_balances, MyApp.myBalanceCols]

/-- Claim C6 amended: on empty Orders and Payments tables both balance
calculators return an empty, correctly-headered table — with columns
(customer_id, credit_sales_total, payments_total, pending_balance) in the
`app.py` variant, and (mobile, customer_name, credit_sales_total,
payments_total, pending_balance) in the `myapp.py` variant. -/
theorem balances_empty_tables :
    DailyShop.compute_customer_balances [] [] = ⟨DailyShop.balanceCols, []⟩ ∧
    MyApp.compute_customer_balances [] [] = ⟨MyApp.myBalanceCols, []⟩ ∧
    DailyShop.balanceCols =
      ["customer_id", "credit_sales_total", "payments_total", "pending_balance"] ∧
    MyApp.myBalanceCols =
      ["mobile", "customer_name", "credit_sales_total", "payments_total",
       "pending_balance"] := by
  refine ⟨?_, ?_, rfl, rfl⟩
  · simp [DailyShop.compute_customer_balances]
  · simp [MyApp.compute_customer_balances]

namespace DailyShop

theorem find?_map_keys (keys : List String) (g : String → ℚ) (k : String)
    (hk : k ∈ keys) :
    (keys.map (fun j => (j, g j))).find? (fun p => p.1 == k) = some (k, g k) := by
  induction keys with
  | nil => cases hk
  | cons a tl ih =>
    rcases List.mem_cons.mp hk with h | h
    · subst h
      simp [List.find?_cons]
    · by_cases ha : a = k
      · subst ha
        simp [List.find?_cons]
      · have hf : ((a, g a).1 == k) = false := by simp [ha]
        simp only [List.map_cons, List.find?_cons, hf]
        exact ih h

theorem find?_map_keys_none (keys : List String) (g : String → ℚ) (k : String)
    (hk : k ∉ keys) :
    (keys.map (fun j => (j, g j))).find? (fun p => p.1 == k) = none := by
  rw [List.find?_eq_none]
  intro p hp
  simp only [List.mem_map] at hp
  obtain ⟨j, hj, rfl⟩ := hp
  simp only [beq_iff_eq]
  rintro rfl
  exact hk hj

theorem lookupD_groupSum (pairs : List (String × ℚ)) (k : String) :
    lookupD (groupSum pairs) k =
      ((pairs.filter (fun p => p.1 == k)).map Prod.snd).sum := by
  unfold lookupD groupSum
  by_cases hk : k ∈ (pairs.map Prod.fst).dedup
  · rw [find?_map_keys _ _ _ hk]
  · rw [find?_map_keys_none _ _ _ hk]
    have hk' : k ∉ pairs.map Prod.fst := fun h => hk (List.mem_dedup.mpr h)
    have hfil : pairs.filter (fun p => p.1 == k) = [] := by
      rw [List.filter_eq_nil_iff]
      intro p hp hbeq
      exact hk' (by rw [← eq_of_beq hbeq] at *; exact List.mem_map_of_mem Prod.fst hp)
    rw [hfil]
    simp

theorem groupSum_keys (pairs : List (String × ℚ)) :
    (groupSum pairs).map Prod.fst = (pairs.map Prod.fst).dedup := by
  unfold groupSum
  rw [List.map_map]
  exact List.map_id _

theorem lookupD_credit (orders : List Order) (c : String) :
    lookupD (groupSum ((orders.filter isCreditOrder).map
        (fun o => (o.customer_id, o.total)))) c = specCreditTotal orders c := by
  rw [lookupD_groupSum, List.filter_map, List.map_map, List.filter_filter]
  rfl

theorem lookupD_pay (payments : List Payment) (c : String) :
    lookupD (groupSum (payments.map (fun p => (p.customer_id, p.amount)))) c =
      specPaymentsTotal payments c := by
  rw [lookupD_groupSum, List.filter_map, List.map_map]
  rfl

end DailyShop

namespace DailyShop

theorem nodup_cid_of_sorted_keyed (keys : List String) (g1 g2 : String → ℚ)
    (hnd : keys.Nodup) :
    (((keys.map (fun c => (⟨c, g1 c, g2 c, g1 c - g2 c⟩ : BalanceRow))).mergeSort
        pendingGe).map BalanceRow.customer_id).Nodup := by
  have hperm := (List.mergeSort_perm
    (keys.map (fun c => (⟨c, g1 c, g2 c, g1 c - g2 c⟩ : BalanceRow)))
    pendingGe).map BalanceRow.customer_id
  have hid : ((keys.map (fun c => (⟨c, g1 c, g2 c, g1 c - g2 c⟩ : BalanceRow))).map
      BalanceRow.customer_id) = keys := by
    rw [List.map_map]
    exact List.map_id _
  rw [hid] at hperm
  exact hperm.nodup_iff.mpr hnd

/-- Claim C3: `compute_customer_balances` returns one row per customer_id
appearing among the credit orders or the payments (outer join, missing side 0):
its `credit_sales_total` is the sum of `total` over the orders of that customer with
payment mode "Credit" case-insensitively, its `payments_total` the sum of the
payment amounts of the customer, and `pending_balance` their difference. -/
theorem compute_customer_balances_correct (orders : List Order)
    (payments : List Payment) :
    (((compute_customer_balances orders payments).rows.map
        BalanceRow.customer_id).Nodup) ∧
    (∀ c : String,
      (∃ r ∈ (compute_customer_balances orders payments).rows, r.customer_id = c) ↔
        ((∃ o ∈ orders, isCreditOrder o = true ∧ o.customer_id = c) ∨
         (∃ p ∈ payments, p.customer_id = c))) ∧
    (∀ r ∈ (compute_customer_balances orders payments).rows,
      r.credit_sales_total = specCreditTotal orders r.customer_id ∧
      r.payments_total = specPaymentsTotal payments r.customer_id ∧
      r.pending_balance = r.credit_sales_total - r.payments_total) := by
  by_cases hemp : orders = [] ∧ payments = []
  · obtain ⟨ho, hp⟩ := hemp
    subst ho
    subst hp
    refine ⟨by simp [compute_customer_balances], fun c => by simp [compute_customer_balances], ?_⟩
    intro r hr
    simp [compute_customer_balances] at hr
  · have hrows : (compute_customer_balances orders payments).rows =
        ((((groupSum ((orders.filter isCreditOrder).map
              (fun o => (o.customer_id, o.total)))).map Prod.fst ++
           (groupSum (payments.map (fun p => (p.customer_id, p.amount)))).map
              Prod.fst).dedup).map
          (fun c => (⟨c,
            lookupD (groupSum ((orders.filter isCreditOrder).map
              (fun o => (o.customer_id, o.total)))) c,
            lookupD (groupSum (payments.map (fun p => (p.customer_id, p.amount)))) c,
            lookupD (groupSum ((orders.filter isCreditOrder).map
              (fun o => (o.customer_id, o.total)))) c -
              lookupD (groupSum (payments.map
                (fun p => (p.customer_id, p.amount)))) c⟩ : BalanceRow))).mergeSort
          pendingGe := by
      unfold compute_customer_balances
      rw [if_neg hemp]
    have hmemkeys : ∀ c : String,
        c ∈ ((groupSum ((orders.filter isCreditOrder).map
              (fun o => (o.customer_id, o.total)))).map Prod.fst ++
            (groupSum (payments.map (fun p => (p.customer_id, p.amount)))).map
              Prod.fst).dedup ↔
          ((∃ o ∈ orders, isCreditOrder o = true ∧ o.customer_id = c) ∨
           (∃ p ∈ payments, p.customer_id = c)) := by
      intro c
      rw [List.mem_dedup, List.mem_append, groupSum_keys, groupSum_keys,
        List.mem_dedup, List.mem_dedup]
      simp only [List.mem_map, List.mem_filter]
      constructor
      · rintro (⟨x, ⟨o, ⟨ho, hco⟩, rfl⟩, hxc⟩ | ⟨x, ⟨p, hp, rfl⟩, hxc⟩)
        · exact Or.inl ⟨o, ho, hco, hxc⟩
        · exact Or.inr ⟨p, hp, hxc⟩
      · rintro (⟨o, ho, hco, hoc⟩ | ⟨p, hp, hpc⟩)
        · exact Or.inl ⟨(o.customer_id, o.total), ⟨o, ⟨ho, hco⟩, rfl⟩, hoc⟩
        · exact Or.inr ⟨(p.customer_id, p.amount), ⟨p, hp, rfl⟩, hpc⟩
    refine ⟨?_, ?_, ?_⟩
    · rw [hrows]
      exact nodup_cid_of_sorted_keyed _ _ _ (List.nodup_dedup _)
    · intro c
      rw [hrows]
      constructor
      · rintro ⟨r, hr, rfl⟩
        rw [List.mem_mergeSort] at hr
        obtain ⟨c', hc', rfl⟩ := List.mem_map.mp hr
        exact (hmemkeys c').mp hc'
      · intro h
        have hm := List.mem_map_of_mem (fun c => (⟨c,
            lookupD (groupSum ((orders.filter isCreditOrder).map
              (fun o => (o.customer_id, o.total)))) c,
            lookupD (groupSum (payments.map (fun p => (p.customer_id, p.amount)))) c,
            lookupD (groupSum ((orders.filter isCreditOrder).map
              (fun o => (o.customer_id, o.total)))) c -
              lookupD (groupSum (payments.map
                (fun p => (p.customer_id, p.amount)))) c⟩ : BalanceRow))
          ((hmemkeys c).mpr h)
        exact ⟨_, List.mem_mergeSort.mpr hm, rfl⟩
    · intro r hr
      rw [hrows] at hr
      rw [List.mem_mergeSort] at hr
      obtain ⟨c', hc', rfl⟩ := List.mem_map.mp hr
      exact ⟨lookupD_credit orders c', lookupD_pay payments c', rfl⟩

end DailyShop

namespace DailyShop

/-- Witness for C3, scenario 3 of the spec: after a Credit order of 75 and a
payment of 50 by customer 9000000001, that customer appears in the balance
table, with credit total 75, payments total 50 and pending balance 25. -/
theorem compute_customer_balances_correct_witness :
    (∃ r ∈ (compute_customer_balances [ordCredit75] [payRow50]).rows,
        r.customer_id = "9000000001") ∧
    specCreditTotal [ordCredit75] "9000000001" = 75 ∧
    specPaymentsTotal [payRow50] "9000000001" = 50 ∧
    specCreditTotal [ordCredit75] "9000000001" -
      specPaymentsTotal [payRow50] "9000000001" = 25 := by
  have main := compute_customer_balances_correct [ordCredit75] [payRow50]
  have hco : isCreditOrder ordCredit75 = true := by decide
  have hc : specCreditTotal [ordCredit75] "9000000001" = 75 := by
    have hfil : [ordCredit75].filter
        (fun o => o.customer_id == "9000000001" && isCreditOrder o) = [ordCredit75] := by
      decide
    unfold specCreditTotal
    rw [hfil]
    simp [ordCredit75]
  have hp : specPaymentsTotal [payRow50] "9000000001" = 50 := by
    have hfil : [payRow50].filter (fun p => p.customer_id == "9000000001") =
        [payRow50] := by
      decide
    unfold specPaymentsTotal
    rw [hfil]
    simp [payRow50]
  refine ⟨(main.2.1 "9000000001").mpr
      (Or.inl ⟨ordCredit75, by simp, hco, rfl⟩), hc, hp, ?_⟩
  rw [hc, hp]
  norm_num

end DailyShop

/-! ### Lemmas for the CSV record store -/

namespace Csv

theorem goodCellB_spec (c : Option String) (h : goodCellB c = true) :
    ∃ s : String, c = some s ∧ ',' ∉ s.data ∧ s ∉ naTokens := by
  cases c with
  | none => simp [goodCellB] at h
  | some s =>
    refine ⟨s, rfl, ?_, ?_⟩
    · have := (Bool.and_eq_true_iff.mp h).1
      simpa using this
    · have := (Bool.and_eq_true_iff.mp h).2
      simpa using this

theorem decodeLine_encodeLine (cells : List (Option String)) (hne : cells ≠ [])
    (hc : ∀ c ∈ cells, goodCellB c = true) :
    decodeLine (encodeLine cells) = cells := by
  unfold decodeLine encodeLine
  have hx : ∀ l ∈ cells.map cellToChars, ',' ∉ l := by
    intro l hl
    obtain ⟨c, hcm, rfl⟩ := List.mem_map.mp hl
    obtain ⟨s, rfl, hcomma, _⟩ := goodCellB_spec c (hc c hcm)
    simpa [cellToChars] using hcomma
  have hls : cells.map cellToChars ≠ [] := by
    simpa [List.map_eq_nil_iff] using hne
  rw [List.splitOn_intercalate _ ',' hx hls, List.map_map]
  have hpt : ∀ c ∈ cells, (charsToCell ∘ cellToChars) c = id c := by
    intro c hcm
    obtain ⟨s, rfl, _, hna⟩ := goodCellB_spec c (hc c hcm)
    simp only [Function.comp, cellToChars, charsToCell, id]
    have hmk : String.mk s.data = s := by cases s; rfl
    rw [hmk, if_neg hna]
  rw [List.map_congr_left hpt, List.map_id]

theorem decodeHeader_encodeHeader (cols : List String) (hne : cols ≠ [])
    (hcomma : ∀ c ∈ cols, ',' ∉ c.data) :
    decodeHeader (encodeHeader cols) = cols := by
  unfold decodeHeader encodeHeader
  have hx : ∀ l ∈ cols.map String.data, ',' ∉ l := by
    intro l hl
    obtain ⟨c, hcm, rfl⟩ := List.mem_map.mp hl
    exact hcomma c hcm
  have hls : cols.map String.data ≠ [] := by
    simpa [List.map_eq_nil_iff] using hne
  rw [List.splitOn_intercalate _ ',' hx hls, List.map_map]
  have hpt : ∀ c ∈ cols, (String.mk ∘ String.data) c = id c := by
    intro c _
    cases c
    rfl
  rw [List.map_congr_left hpt, List.map_id]

theorem selectCols_self (cols : List String) (row : List (Option String))
    (hnd : cols.Nodup) (hlen : row.length = cols.length) :
    selectCols cols cols row = row := by
  induction cols generalizing row with
  | nil =>
    cases row with
    | nil => rfl
    | cons v vs => simp at hlen
  | cons c cs ih =>
    cases row with
    | nil => simp at hlen
    | cons v vs =>
      obtain ⟨hcn, hnd'⟩ := List.nodup_cons.mp hnd
      unfold selectCols
      rw [List.map_cons]
      have hzip : (c :: cs).zip (v :: vs) = (c, v) :: cs.zip vs := rfl
      congr 1
      · rw [hzip]
        simp [List.find?_cons]
      · have hpt : ∀ c' ∈ cs,
            (match ((c :: cs).zip (v :: vs)).find? (fun p => p.1 == c') with
             | some p => p.2
             | none => none) =
            (match (cs.zip vs).find? (fun p => p.1 == c') with
             | some p => p.2
             | none => none) := by
          intro c' hc'
          have hne : (c == c') = false := by
            have : c ≠ c' := fun h => hcn (h ▸ hc')
            simpa using this
          rw [hzip]
          simp only [List.find?_cons, hne]
        rw [List.map_congr_left hpt]
        exact ih vs hnd' (by simpa using hlen)

theorem load_save (t : Table) (hcols_ne : t.cols ≠ []) (hnd : t.cols.Nodup)
    (hcomma : ∀ c ∈ t.cols, ',' ∉ c.data)
    (hlen : ∀ r ∈ t.rows, r.length = t.cols.length)
    (hcells : ∀ r ∈ t.rows, ∀ c ∈ r, goodCellB c = true) :
    load_csv (save_csv t) t.cols = t := by
  obtain ⟨cols, rows⟩ := t
  dsimp only at hcols_ne hnd hcomma hlen hcells
  simp only [save_csv, load_csv]
  rw [decodeHeader_encodeHeader cols hcols_ne hcomma]
  have hpt : ∀ r ∈ rows,
      ((fun line => selectCols cols cols (decodeLine line)) ∘ encodeLine) r =
        id r := by
    intro r hr
    have hrne : r ≠ [] := by
      intro h
      subst h
      have hl := hlen [] hr
      simp only [List.length_nil] at hl
      exact hcols_ne (List.length_eq_zero.mp hl.symm)
    show selectCols cols cols (decodeLine (encodeLine r)) = r
    rw [decodeLine_encodeLine r hrne (hcells r hr)]
    exact selectCols_self cols r hnd (hlen r hr)
  congr 1
  rw [List.map_map, List.map_congr_left hpt, List.map_id]

end Csv

namespace Csv

/-- Claim C7 amended: saving a table whose columns match a canonical schema
and then loading it for that entity returns it unchanged, column-for-column
and row-for-row, PROVIDED every cell is a present, delimiter-free string that
is not one of the pandas NA tokens; an empty-string cell (see the counterexample)
comes back as a missing value. -/
theorem csv_roundtrip (t : Table) (hmem : t.cols ∈ appSchemas)
    (hlen : ∀ r ∈ t.rows, r.length = t.cols.length)
    (hcells : ∀ r ∈ t.rows, ∀ c ∈ r, goodCellB c = true) :
    load_csv (save_csv t) t.cols = t := by
  simp only [appSchemas, List.mem_cons, List.mem_singleton, List.not_mem_nil,
    or_false] at hmem
  rcases hmem with h | h | h | h | h <;>
    exact load_save t (by rw [h]; decide) (by rw [h]; decide) (by rw [h]; decide)
      hlen hcells

/-- Witness for C7 at an inventory-shaped table of benign cells. -/
theorem csv_roundtrip_witness :
    load_csv (save_csv tGood) tGood.cols = tGood := by
  apply csv_roundtrip
  · decide
  · decide
  · decide

/-- Claim C7 counterexample: an inventory-shaped table with an empty-string
cell does not survive the round trip — `to_csv` writes the empty string as an
empty field and `read_csv` reads it back as a missing value (NaN). -/
theorem csv_roundtrip_empty_cell_fails :
    load_csv (save_csv tEmptyCell) tEmptyCell.cols ≠ tEmptyCell := by
  decide

end Csv
